import Mathlib

/-!
# Verification of the `mond_clock` wallpaper script

A shallow embedding of `src/wallpapers/mond_clock/script.js` and proofs of
the specification's claims about it.

The script reads the host clock once per render (`const now = new Date()`),
formats three strings (weekday name, long date, 12-hour time) and writes
them to three display slots; at startup it renders once, computes the
milliseconds until the next whole-minute boundary, and after that delay
renders again and starts a 60000 ms interval timer.

The embedding models an instant as a civil local date-time.  The JS `Date`
accessors (`getDay`, `getMonth`, `getDate`, `getFullYear`, `getHours`,
`getMinutes`) are host built-ins, not repository code; they are modelled
here following their documented semantics (`getDay` is the day of the week
of the local date, 0 = Sunday, derived from the calendar date by the
standard civil-day count).
-/

namespace MondClock

/-- A civil local date-time instant, with the fields the script reads.
`month` is 0-indexed (0 = January … 11 = December) matching JS `getMonth`;
`day` is the 1-indexed day of month (`getDate`); `hour` is 0–23
(`getHours`); `minute` is 0–59 (`getMinutes`). -/
structure Instant where
  year : Int
  month : Nat
  day : Nat
  hour : Nat
  minute : Nat
deriving DecidableEq, Repr

/-- The ranges the host guarantees for the `Date` accessors. -/
def Instant.Valid (t : Instant) : Prop :=
  t.month ≤ 11 ∧ 1 ≤ t.day ∧ t.day ≤ 31 ∧ t.hour ≤ 23 ∧ t.minute ≤ 59

instance (t : Instant) : Decidable t.Valid := by
  unfold Instant.Valid; infer_instance

/-- Modelled from the spec: the host `Date` built-in's civil-day count.
Number of days from 1970-01-01 to the date `(y, m, d)` with `m` 1-indexed,
following the standard Gregorian civil-from-days algorithm used by hosts. -/
def daysFromCivil (y : Int) (m : Nat) (d : Nat) : Int :=
  let y' : Int := if m ≤ 2 then y - 1 else y
  let era : Int := (if 0 ≤ y' then y' else y' - 399) / 400
  let yoe : Int := y' - era * 400
  let mp : Int := ((m : Int) + 9) % 12
  let doy : Int := (153 * mp + 2) / 5 + ((d : Int) - 1)
  let doe : Int := yoe * 365 + yoe / 4 - yoe / 100 + doy
  era * 146097 + doe - 719468

/-- Modelled from the spec: JS `Date.prototype.getDay`, the day of the week
of the local date, 0 = Sunday … 6 = Saturday.  1970-01-01 was a Thursday,
hence the offset 4. -/
def Instant.getDay (t : Instant) : Nat :=
  ((daysFromCivil t.year (t.month + 1) t.day + 4) % 7).toNat

/-- Embeds `const days = ['Sunday', …, 'Saturday']` (script.js line 5). -/
def days : List String :=
  ["Sunday", "Monday", "Tuesday", "Wednesday", "Thursday", "Friday", "Saturday"]

/-- Embeds `const months = ['January', …, 'December']` (script.js line 9). -/
def months : List String :=
  ["January", "February", "March", "April", "May", "June", "July",
   "August", "September", "October", "November", "December"]

/-- Embeds `days[now.getDay()]` (script.js line 6).  An out-of-range JS index
yields `undefined`; the embedding uses the default `""` there, and the
in-bounds proofs show the default is never taken. -/
def weekdayStr (t : Instant) : String :=
  days.getD t.getDay ""

/-- Embeds the template literal building `dateStr`
(script.js line 10). -/
def dateStr (t : Instant) : String :=
  months.getD t.month "" ++ " " ++ toString t.day ++ ", " ++ toString t.year

/-- Embeds `hours = hours % 12; hours = hours ? hours : 12` (script.js lines 17–18):
0 is falsy in JS, so a zero remainder becomes 12. -/
def hour12 (h : Nat) : Nat :=
  if h % 12 = 0 then 12 else h % 12

/-- Embeds `const ampm = hours >= 12 ? 'PM' : 'AM'` (script.js line 16), applied
to the 24-hour value before the reduction mod 12. -/
def ampm (h : Nat) : String :=
  if 12 ≤ h then "PM" else "AM"

/-- Embeds `const minutesStr = minutes < 10 ? '0' + minutes : minutes`
(script.js line 19). -/
def minutesStr (m : Nat) : String :=
  if m < 10 then "0" ++ toString m else toString m

/-- Embeds the template literal building `timeStr` (script.js line 20). -/
def timeStr (t : Instant) : String :=
  "- " ++ toString (hour12 t.hour) ++ ":" ++ minutesStr t.minute
    ++ " " ++ ampm t.hour ++ " -"

/-- The three strings one render writes to the `day`, `date` and `time`
display slots. -/
structure Output where
  day : String
  date : String
  time : String
deriving DecidableEq, Repr

/-- Embeds `updateClock` (script.js lines 1–22) as a pure function of the captured
instant: the three formatted strings it writes. -/
def updateClock (t : Instant) : Output :=
  { day := weekdayStr t, date := dateStr t, time := timeStr t }

/-- Embeds `updateClock` against an ambient clock, keeping count of the reads:
`clock` gives the instant returned by the `n`-th `new Date()` construction
and `s0` is the index of the next read.  The body captures `now` once and
derives all three strings from that single captured value, exactly as
lines 2–21 of the script do. -/
def updateClockFrom (clock : Nat → Instant) (s0 : Nat) : Output × Nat :=
  let now := clock s0
  let s1 := s0 + 1
  ({ day := weekdayStr now, date := dateStr now, time := timeStr now }, s1)

/-- Embeds `(60 - now.getSeconds()) * 1000 - now.getMilliseconds()`
(script.js line 29). -/
def msUntilNextMinute (s ms : Int) : Int :=
  (60 - s) * 1000 - ms

/-- The instant (in ms from startup) of the `n`-th invocation of
`updateClock` by the scheduler (script.js lines 25–34): one immediate call,
then one after the alignment delay `d`, then one every 60000 ms forever. -/
def renderTime (d : Int) : Nat → Int
  | 0 => 0
  | n + 1 => d + 60000 * (n : Int)

/-- Helper: the 12-hour reduction facts, checked over the finite hour range. -/
lemma hour12_facts : ∀ h : Nat, h ≤ 23 →
    1 ≤ hour12 h ∧ hour12 h ≤ 12 ∧ (ampm h = "PM" ↔ 12 ≤ h) ∧
    hour12 h = (if h % 12 = 0 then 12 else h % 12) := by
  decide

/-- Helper: minute-padding facts, checked over the finite minute range. -/
lemma minutesStr_facts : ∀ m : Nat, m ≤ 59 →
    (minutesStr m).length = 2 ∧
    (m < 10 → minutesStr m = "0" ++ toString m) ∧
    (10 ≤ m → minutesStr m = toString m) := by
  decide

/-- Helper: day-of-month strings never carry a leading zero. -/
lemma day_no_leading_zero : ∀ d : Nat, 1 ≤ d → d ≤ 31 →
    (toString d).data.head? ≠ some (Char.ofNat 48) := by
  decide

/-- Helper: the weekday index is an `emod` by 7, hence at most 6. -/
lemma getDay_le_six (t : Instant) : t.getDay ≤ 6 := by
  unfold Instant.getDay
  have h1 := Int.emod_nonneg (daysFromCivil t.year (t.month + 1) t.day + 4)
    (by norm_num : (7 : Int) ≠ 0)
  have h2 := Int.emod_lt_of_pos (daysFromCivil t.year (t.month + 1) t.day + 4)
    (by norm_num : (0 : Int) < 7)
  omega

/-- C1: for every instant whose hour is in the host range 0–23, the hour
component written into `timeLabel` is `hour12 t.hour`, which lies in
`[1, 12]`, equals `hour % 12` with 12 substituted for 0, and carries the
tag PM exactly when `hour ≥ 12`; in particular hour 0 gives 12 AM, hour 12
gives 12 PM and hour 13 gives 1 PM. -/
theorem hour_component_in_range (t : Instant) (ht : t.hour ≤ 23) :
    ((updateClock t).time = "- " ++ toString (hour12 t.hour) ++ ":" ++
        minutesStr t.minute ++ " " ++ ampm t.hour ++ " -" ∧
      1 ≤ hour12 t.hour ∧ hour12 t.hour ≤ 12 ∧
      (ampm t.hour = "PM" ↔ 12 ≤ t.hour) ∧
      hour12 t.hour = (if t.hour % 12 = 0 then 12 else t.hour % 12)) ∧
    hour12 0 = 12 ∧ ampm 0 = "AM" ∧
    hour12 12 = 12 ∧ ampm 12 = "PM" ∧
    hour12 13 = 1 ∧ ampm 13 = "PM" := by
  exact ⟨⟨rfl, hour12_facts t.hour ht⟩, by decide⟩

/-- Witness for C1 at the instant 2024-01-01T13:05. -/
theorem hour_component_in_range_witness :
    1 ≤ hour12 (Instant.mk 2024 0 1 13 5).hour :=
  (hour_component_in_range ⟨2024, 0, 1, 13, 5⟩ (by decide)).1.2.1

/-- C2: for every instant whose minute is in the host range 0–59, the
minute component written into `timeLabel` is `minutesStr t.minute`, which
is exactly two characters, is `"0"` prepended to the digits exactly when
the minute is below 10, and is the bare digits otherwise; in particular
minute 5 gives "05", minute 45 gives "45" and minute 0 gives "00". -/
theorem minute_component_padded (t : Instant) (hm : t.minute ≤ 59) :
    ((updateClock t).time = "- " ++ toString (hour12 t.hour) ++ ":" ++
        minutesStr t.minute ++ " " ++ ampm t.hour ++ " -" ∧
      (minutesStr t.minute).length = 2 ∧
      (t.minute < 10 → minutesStr t.minute = "0" ++ toString t.minute) ∧
      (10 ≤ t.minute → minutesStr t.minute = toString t.minute)) ∧
    minutesStr 5 = "05" ∧ minutesStr 45 = "45" ∧ minutesStr 0 = "00" := by
  exact ⟨⟨rfl, minutesStr_facts t.minute hm⟩, by decide⟩

/-- Witness for C2 at the instant 2024-01-01T13:05. -/
theorem minute_component_padded_witness :
    (minutesStr (Instant.mk 2024 0 1 13 5).minute).length = 2 :=
  (minute_component_padded ⟨2024, 0, 1, 13, 5⟩ (by decide)).1.2.1

/-- C3: for all seconds `s` in 0–59 and milliseconds `ms` in 0–999, the
alignment delay equals `(60 - s) * 1000 - ms` and is strictly positive;
in particular `s = 59, ms = 500` gives 500 and the boundary `s = 0,
ms = 0` gives exactly 60000, not zero. -/
theorem alignment_delay (s ms : Int) (hs0 : 0 ≤ s) (hs : s ≤ 59)
    (hm0 : 0 ≤ ms) (hm : ms ≤ 999) :
    (msUntilNextMinute s ms = (60 - s) * 1000 - ms ∧
      0 < msUntilNextMinute s ms) ∧
    msUntilNextMinute 59 500 = 500 ∧
    msUntilNextMinute 0 0 = 60000 ∧ msUntilNextMinute 0 0 ≠ 0 := by
  refine ⟨⟨rfl, ?_⟩, by decide⟩
  unfold msUntilNextMinute
  nlinarith

/-- Witness for C3 at `s = 59`, `ms = 500`. -/
theorem alignment_delay_witness : msUntilNextMinute 59 500 = 500 :=
  (alignment_delay 59 500 (by decide) (by decide) (by decide) (by decide)).2.1

/-- C4: the two end-to-end instants of the spec: 2024-03-07T00:05 (a
Thursday) and 2024-12-31T23:59 (a Tuesday) render to exactly the stated
weekday, date and time strings (months are 0-indexed in the instants). -/
theorem end_to_end_instants :
    updateClock ⟨2024, 2, 7, 0, 5⟩ =
      ⟨"Thursday", "March 7, 2024", "- 12:05 AM -"⟩ ∧
    updateClock ⟨2024, 11, 31, 23, 59⟩ =
      ⟨"Tuesday", "December 31, 2024", "- 11:59 PM -"⟩ := by
  constructor <;> rfl

/-- C5: for every instant, the weekday field of the render is the
seven-entry Sunday-first table indexed at the instant's day-of-week, the
table is exactly the seven English names in Sunday-first order, the index
never exceeds 6, and the day-of-week model is anchored correctly
(1970-01-01 was a Thursday, index 4; the two spec dates land on Thursday
and Tuesday). -/
theorem weekday_from_table (t : Instant) :
    (updateClock t).day = days.getD t.getDay "" ∧
    t.getDay ≤ 6 ∧
    days = ["Sunday", "Monday", "Tuesday", "Wednesday", "Thursday",
            "Friday", "Saturday"] ∧
    (Instant.mk 1970 0 1 0 0).getDay = 4 ∧
    (Instant.mk 2024 2 7 0 5).getDay = 4 ∧
    (Instant.mk 2024 11 31 23 59).getDay = 2 := by
  exact ⟨rfl, getDay_le_six t, rfl, by decide⟩

/-- C6: for every valid instant, the date field of the render is the month
name from the fixed 12-entry table, a space, the 1-indexed day of month
with no leading zero, a comma-space, and the full year; the table is
exactly the twelve English month names. -/
theorem date_label_format (t : Instant) (hv : t.Valid) :
    (updateClock t).date =
      months.getD t.month "" ++ " " ++ toString t.day ++ ", " ++
        toString t.year ∧
    months = ["January", "February", "March", "April", "May", "June",
              "July", "August", "September", "October", "November",
              "December"] ∧
    (toString t.day).data.head? ≠ some (Char.ofNat 48) := by
  exact ⟨rfl, rfl, day_no_leading_zero t.day hv.2.1 hv.2.2.1⟩

/-- Witness for C6 at the valid instant 2024-03-07T00:05. -/
theorem date_label_format_witness :
    (updateClock ⟨2024, 2, 7, 0, 5⟩).date =
      months.getD (Instant.mk 2024 2 7 0 5).month "" ++ " " ++
        toString (Instant.mk 2024 2 7 0 5).day ++ ", " ++
        toString (Instant.mk 2024 2 7 0 5).year :=
  (date_label_format ⟨2024, 2, 7, 0, 5⟩ (by decide)).1

/-- C7: running the body against any ambient clock reads the clock exactly
once (the read index advances by exactly 1) and all three output strings
equal those of the pure render of that single captured instant — no
tearing across the three fields. -/
theorem single_instant_capture (clock : Nat → Instant) (s0 : Nat) :
    (updateClockFrom clock s0).2 = s0 + 1 ∧
    (updateClockFrom clock s0).1 = updateClock (clock s0) :=
  ⟨rfl, rfl⟩

/-- C8: the render is deterministic in the captured instant: two runs whose
clock reads return the same instant produce identical weekday, date and
time strings. -/
theorem render_deterministic (c c' : Nat → Instant) (n n' : Nat)
    (h : c n = c' n') :
    (updateClockFrom c n).1 = (updateClockFrom c' n').1 := by
  simp only [updateClockFrom, h]

/-- Witness for C8: two reads of a constant clock agree. -/
theorem render_deterministic_witness :
    (updateClockFrom (fun _ => ⟨2024, 0, 1, 0, 0⟩) 0).1 =
      (updateClockFrom (fun _ => ⟨2024, 0, 1, 0, 0⟩) 1).1 :=
  render_deterministic (fun _ => ⟨2024, 0, 1, 0, 0⟩)
    (fun _ => ⟨2024, 0, 1, 0, 0⟩) 0 1 rfl

/-- C9: with the delay computed from the startup seconds and milliseconds,
the scheduler's render times are: an immediate render at time 0, one more
exactly after the alignment delay, and from then on one every 60000 ms —
each later tick exactly 60000 after the previous one, defined for every
tick index (no cancellation). -/
theorem schedule_sequence (s ms : Int) :
    renderTime (msUntilNextMinute s ms) 0 = 0 ∧
    renderTime (msUntilNextMinute s ms) 1 = msUntilNextMinute s ms ∧
    (∀ n : Nat, 1 ≤ n →
      renderTime (msUntilNextMinute s ms) (n + 1) =
        renderTime (msUntilNextMinute s ms) n + 60000) := by
  refine ⟨rfl, by simp [renderTime], ?_⟩
  intro n hn
  cases n with
  | zero => exact absurd hn (by decide)
  | succ m =>
    simp only [renderTime]
    push_cast
    ring

/-- Witness for C9: the gap between the second and third renders is one
minute. -/
theorem schedule_sequence_witness :
    renderTime (msUntilNextMinute 30 250) 2 =
      renderTime (msUntilNextMinute 30 250) 1 + 60000 :=
  (schedule_sequence 30 250).2.2 1 (by decide)

/-- C10: for every valid instant both table lookups are in bounds: the
day-of-week index is below the 7-entry weekday table's length and the
month index is below the 12-entry month table's length, so the
out-of-range (`undefined`) branch is unreachable. -/
theorem lookups_in_bounds (t : Instant) (hv : t.Valid) :
    t.getDay < days.length ∧ t.month < months.length := by
  refine ⟨?_, ?_⟩
  · have := getDay_le_six t
    simp only [days, List.length]
    omega
  · have := hv.1
    simp only [months, List.length]
    omega

/-- Witness for C10 at the valid instant 2024-03-07T00:05. -/
theorem lookups_in_bounds_witness :
    (Instant.mk 2024 2 7 0 5).getDay < days.length :=
  (lookups_in_bounds ⟨2024, 2, 7, 0, 5⟩ (by decide)).1

end MondClock
